import Mathlib

/-!
Shallow embedding of the recurring-task scheduler in
`src/hooks/useScheduler.ts` (the `useScheduler` hook).

JavaScript `Date` objects are modelled as `Option Int`: `some t` is a valid
date whose time value is `t` milliseconds since the Unix epoch, `none` is an
Invalid Date (time value `NaN`).  The host timezone is modelled as UTC
(fixed offset 0, no DST), so local-time field accessors and setters act
directly on the time value.  Calendar conversion uses the proleptic
Gregorian calendar exactly as ECMAScript's `MakeDay` / `DateFromTime` do,
implemented with the standard era-based civil-date algorithm.

The wall clock is modelled as frozen during a single computation: every
`new Date()` executed inside one call (including recursive calls of
`calculateNextRunTime`) observes the same instant `now`, which is passed as
an explicit parameter.  Ambient nondeterminism (the generated task id in
`addTask`, the caller-supplied `onTaskRun` callback) is likewise passed as
a parameter.
-/

namespace SchedulerModel

/-!
### The proleptic Gregorian calendar

Day numbers count days since the Unix epoch (1970-01-01).  Conversion
between day numbers and civil dates uses the standard era-based
decomposition: a 400-year era of 146097 days starting on March 1 of a year
divisible by 400, split into centuries, quadrennia and years; a year of
the era runs from March to February so that a possible leap day is the
last day of its year.  The epoch day 0 is day 719468 of its era.
-/

/-- March-adjusted year used by the day-number computation: the civil year
of `(y, m)` (month `m` 0-based, any integer, normalised into the year),
decremented when the normalised month is January or February. -/
def yAdj (y m : Int) : Int :=
  if m % 12 + 1 ≤ 2 then y + m / 12 - 1 else y + m / 12

/-- March-based month index in `0..11` (March = 0 .. February = 11) of a
0-based month `m` (any integer, normalised). -/
def mpAdj (m : Int) : Int :=
  if 2 < m % 12 + 1 then m % 12 - 2 else m % 12 + 10

/-- Day number (days since the Unix epoch) of the first day of month `m`
(0-based, any integer; normalised into the year exactly as ECMAScript
`MakeDay` normalises its month argument) of year `y`, in the proleptic
Gregorian calendar. -/
def firstDayOfMonth (y m : Int) : Int :=
  yAdj y m / 400 * 146097 +
    365 * (yAdj y m % 400) + yAdj y m % 400 / 4 - yAdj y m % 400 / 100 +
    (153 * mpAdj m + 2) / 5 - 719468

/-- ECMAScript `MakeDay y m d`: day number of day-of-month `d` (any integer)
of month `m` (0-based, any integer) of year `y`. -/
def makeDay (y m d : Int) : Int :=
  firstDayOfMonth y m + (d - 1)

/-- Era index (starting March 1 of a year divisible by 400) of a day
number. -/
def eraOf (z : Int) : Int := (z + 719468) / 146097

/-- Day of era, in `0..146096`. -/
def doeOf (z : Int) : Int := (z + 719468) % 146097

/-- Century of era, in `0..3`. -/
def cOf (z : Int) : Int := doeOf z / 36524 - doeOf z / 146096

/-- Day of century. -/
def dcOf (z : Int) : Int := doeOf z - 36524 * cOf z

/-- Quadrennium of century, in `0..24`. -/
def qOf (z : Int) : Int := dcOf z / 1461

/-- Day of quadrennium, in `0..1460`. -/
def dqOf (z : Int) : Int := dcOf z % 1461

/-- Year of quadrennium, in `0..3`. -/
def yqOf (z : Int) : Int := dqOf z / 365 - dqOf z / 1460

/-- Year of era, in `0..399`. -/
def yoeOf (z : Int) : Int := 100 * cOf z + 4 * qOf z + yqOf z

/-- Day of the March-based year of the era, in `0..365`. -/
def doyOf (z : Int) : Int := dqOf z - 365 * yqOf z

/-- March-based month index of a day number, in `0..11`. -/
def mpOf (z : Int) : Int := (5 * doyOf z + 2) / 153

/-- Civil decomposition of a day number: `(year, month, dayOfMonth)` with
the month 0-based (as `Date.getMonth` returns it) and the day of month in
`1..31`. -/
def civilFromDays (z : Int) : Int × Int × Int :=
  (if 10 ≤ mpOf z then yoeOf z + eraOf z * 400 + 1 else yoeOf z + eraOf z * 400,
   mpOf z + (if mpOf z < 10 then 2 else -10),
   doyOf z - (153 * mpOf z + 2) / 5 + 1)

/-- `Date.prototype.getFullYear` on a valid time value (UTC model). -/
def getFullYear (t : Int) : Int := (civilFromDays (t / 86400000)).1

/-- `Date.prototype.getMonth` (0-based month). -/
def getMonth (t : Int) : Int := (civilFromDays (t / 86400000)).2.1

/-- `Date.prototype.getDate` (day of month, 1-based). -/
def getDate (t : Int) : Int := (civilFromDays (t / 86400000)).2.2

/-- `Date.prototype.getDay` (day of week, 0 = Sunday .. 6 = Saturday);
day 0 of the epoch was a Thursday (= 4). -/
def getDay (t : Int) : Int := (t / 86400000 + 4) % 7

/-- `Date.prototype.getHours`. -/
def getHours (t : Int) : Int := (t / 3600000) % 24

/-- `Date.prototype.getMinutes`. -/
def getMinutes (t : Int) : Int := (t / 60000) % 60

/-- `Date.prototype.getSeconds`. -/
def getSeconds (t : Int) : Int := (t / 1000) % 60

/-- `Date.prototype.getMilliseconds`. -/
def getMilliseconds (t : Int) : Int := t % 1000

/-- Time within the day, `TimeWithinDay` of ECMAScript. -/
def timeOfDay (t : Int) : Int := t % 86400000

/-- A JavaScript `Date`: `some t` is a valid date with time value `t`
(milliseconds since the epoch), `none` is an Invalid Date (`NaN`). -/
abbrev JSDate := Option Int

/-- `d.setMilliseconds v`.  A `none` argument is a `NaN` argument (as
produced by `Number` on a malformed string, or by a missing destructured
component); any `NaN` input poisons the date. -/
def jsSetMilliseconds : JSDate → Option Int → JSDate
  | some t, some v => some (t + (v - getMilliseconds t))
  | _, _ => none

/-- `d.setSeconds v`. -/
def jsSetSeconds : JSDate → Option Int → JSDate
  | some t, some v => some (t + (v - getSeconds t) * 1000)
  | _, _ => none

/-- `d.setMinutes v`. -/
def jsSetMinutes : JSDate → Option Int → JSDate
  | some t, some v => some (t + (v - getMinutes t) * 60000)
  | _, _ => none

/-- `d.setHours v`. -/
def jsSetHours : JSDate → Option Int → JSDate
  | some t, some v => some (t + (v - getHours t) * 3600000)
  | _, _ => none

/-- `d.setDate v`: ECMAScript rebuilds the date as
`MakeDay (year, month, v)` keeping the time of day, which shifts the time
value by `(v - getDate t)` whole days. -/
def jsSetDate : JSDate → Option Int → JSDate
  | some t, some v => some (t + (v - getDate t) * 86400000)
  | _, _ => none

/-- `d.setMonth v`: `MakeDay (year, v, dayOfMonth)` keeping the time of
day; an out-of-range day of month overflows into the following month, and
an out-of-range month into the following year, exactly as in ECMAScript. -/
def jsSetMonth : JSDate → Option Int → JSDate
  | some t, some v =>
      some (makeDay (getFullYear t) v (getDate t) * 86400000 + timeOfDay t)
  | _, _ => none

/-- The JavaScript comparison `a <= b` on two dates: both operands are
converted to their time values, and any comparison with `NaN` is false. -/
def jsLe : JSDate → JSDate → Bool
  | some a, some b => a ≤ b
  | _, _ => false

/-- Accumulate a run of decimal digits; `none` as soon as a non-digit
appears. -/
def parseDigits : List Char → Nat → Option Nat
  | [], acc => some acc
  | c :: rest, acc =>
      if c.isDigit then parseDigits rest (acc * 10 + (c.toNat - 48)) else none

/-- `String.prototype.split` with the one-character separator this
scheduler uses (`':'`), on the character list of the string: splitting
never yields an empty list, and the empty string splits to `[""]`. -/
def splitChars (sep : Char) : List Char → List (List Char)
  | [] => [[]]
  | c :: rest =>
      let r := splitChars sep rest
      if c = sep then [] :: r
      else
        match r with
        | [] => [[c]]
        | g :: gs => (c :: g) :: gs

/-- `s.split(':')` as a list of strings. -/
def jsSplit (s : String) : List String :=
  (splitChars ':' s.data).map (fun l => String.mk l)

/-- JavaScript `Number(s)` on the strings this scheduler feeds it
(components of a `customCron` split on `":"`): the empty string converts
to 0, an optionally signed run of decimal digits to that integer, and
every other string to `NaN` (`none`).  Non-integer numeric formats
(decimals, exponents, hex, surrounding whitespace) are outside the model
and also map to `none`. -/
def jsNumber (s : String) : Option Int :=
  match s.data with
  | [] => some 0
  | '-' :: rest =>
      if rest = [] then none
      else (parseDigits rest 0).map (fun n => -(n : Int))
  | '+' :: rest =>
      if rest = [] then none
      else (parseDigits rest 0).map (fun n => (n : Int))
  | l => (parseDigits l 0).map (fun n => (n : Int))

/-- Task type: `'summary' | 'poster'`. -/
inductive TaskType where
  | summary
  | poster
deriving DecidableEq, Repr

/-- Frequency: `'hourly' | 'daily' | 'weekly' | 'monthly' | 'custom'`.
`other` stands for any runtime value outside the five recognised strings
(the TypeScript union is erased at runtime and tasks are revived from
JSON, so the `switch` in `calculateNextRunTime` can meet such values;
they all take its `default` branch). -/
inductive Frequency where
  | hourly
  | daily
  | weekly
  | monthly
  | custom
  | other (s : String)
deriving DecidableEq, Repr

/-- `lastRunStatus`: `'success' | 'failure'`. -/
inductive RunStatus where
  | success
  | failure
deriving DecidableEq, Repr

/-- The open `options` bag (`Record<string, any>`), modelled opaquely as
key-value pairs. -/
abbrev OptionsBag := List (String × String)

/-- The `SchedulerTask` interface of `useScheduler.ts`. -/
structure SchedulerTask where
  id : String
  type : TaskType
  groupId : String
  frequency : Frequency
  customCron : Option String
  nextRunTime : JSDate
  lastRunTime : Option JSDate
  lastRunStatus : Option RunStatus
  isActive : Bool
  createdAt : JSDate
  updatedAt : JSDate
  options : Option OptionsBag
deriving DecidableEq, Repr

/-- Notification severity accepted by `addNotification`. -/
inductive NotifLevel where
  | info
  | success
  | warning
  | error
deriving DecidableEq, Repr

/-- A notification: severity and message. -/
abbrev Notification := NotifLevel × String

/-- `Omit<SchedulerTask, 'id' | 'createdAt' | 'updatedAt'>`: the argument
of `addTask`. -/
structure TaskSpec where
  type : TaskType
  groupId : String
  frequency : Frequency
  customCron : Option String
  nextRunTime : JSDate
  lastRunTime : Option JSDate
  lastRunStatus : Option RunStatus
  isActive : Bool
  options : Option OptionsBag
deriving DecidableEq, Repr

/-- `Partial<SchedulerTask>`: the `updates` argument of `updateTask`.  A
`none` field is an absent key, skipped by the object spread. -/
structure TaskUpdates where
  id : Option String := none
  type : Option TaskType := none
  groupId : Option String := none
  frequency : Option Frequency := none
  customCron : Option (Option String) := none
  nextRunTime : Option JSDate := none
  lastRunTime : Option (Option JSDate) := none
  lastRunStatus : Option (Option RunStatus) := none
  isActive : Option Bool := none
  createdAt : Option JSDate := none
  updatedAt : Option JSDate := none
  options : Option (Option OptionsBag) := none
deriving DecidableEq, Repr

/-- The candidate `nextRun` computed by the `switch` statement of
`calculateNextRunTime` (lines 153-202), starting from `new Date()` (the
frozen `now`) and mutated by the branch taken.  In the `custom` branch the guard
`if (task.customCron)` is a truthiness test, so both an absent and an
empty-string `customCron` leave `nextRun` untouched; when the branch body
runs, nothing inside the `try` can throw (`split`, `map(Number)` and the
`Date` setters never do; a malformed component becomes `NaN` and poisons
the date), so the `catch` fallback is dead code and does not appear. -/
def calcCandidate (task : SchedulerTask) (now : Int) : JSDate :=
  match task.frequency with
  | .hourly =>
      jsSetMilliseconds (jsSetSeconds (jsSetMinutes
        (jsSetHours (some now) (some (getHours now + 1))) (some 0)) (some 0)) (some 0)
  | .daily =>
      jsSetMilliseconds (jsSetSeconds (jsSetMinutes (jsSetHours
        (jsSetDate (some now) (some (getDate now + 1))) (some 9)) (some 0)) (some 0)) (some 0)
  | .weekly =>
      let off := 7 - getDay now
      let off2 := if off = 0 then 7 else off
      jsSetMilliseconds (jsSetSeconds (jsSetMinutes (jsSetHours
        (jsSetDate (some now) (some (getDate now + off2))) (some 9)) (some 0)) (some 0))
        (some 0)
  | .monthly =>
      jsSetMilliseconds (jsSetSeconds (jsSetMinutes (jsSetHours
        (jsSetDate (jsSetMonth (some now) (some (getMonth now + 1))) (some 1)) (some 9))
        (some 0)) (some 0)) (some 0)
  | .custom =>
      match task.customCron with
      | none => some now
      | some s =>
          if s = "" then some now
          else
            let parts := (jsSplit s).map jsNumber
            let hour := (parts.get? 0).getD none
            let minute := (parts.get? 1).getD none
            jsSetMilliseconds (jsSetSeconds (jsSetMinutes (jsSetHours
              (jsSetDate (some now) (some (getDate now + 1))) hour) minute) (some 0))
              (some 0)
  | .other _ => jsSetDate (some now) (some (getDate now + 1))

/-- `calculateNextRunTime` (lines 149-210).  The final guard re-invokes
the function when the candidate is not strictly after `now`, passing
`{...task, lastRunTime: now}`; under the frozen clock the re-invocation
recomputes the identical candidate, so the recursion is fueled: `none`
means the fuel ran out, i.e. under the frozen clock the call never
returns.  `some d` is the returned `Date` (`d = none` is an Invalid
Date). -/
def calculateNextRunTime : Nat → SchedulerTask → Int → Option JSDate
  | 0, _, _ => none
  | fuel + 1, task, now =>
      let nextRun := calcCandidate task now
      if jsLe nextRun (some now) then
        calculateNextRunTime fuel { task with lastRunTime := some (some now) } now
      else some nextRun

/-- `calculateNextRunTime` returns at some fuel (under the frozen
clock). -/
def CalcTerminates (task : SchedulerTask) (now : Int) : Prop :=
  ∃ fuel, calculateNextRunTime fuel task now ≠ none

/-- `addTask` (lines 72-88): builds the new task from the spec with a
fresh generated id (`task_${Date.now()}_${random}`, passed in as
`genId`) and `createdAt = updatedAt = new Date()`, appends it, and emits
a success notification.  Returns the new collection, the new task (the
function's return value) and the emitted notifications. -/
def addTask (tasks : List SchedulerTask) (spec : TaskSpec) (genId : String) (now : Int) :
    List SchedulerTask × SchedulerTask × List Notification :=
  let newTask : SchedulerTask :=
    { id := genId, type := spec.type, groupId := spec.groupId,
      frequency := spec.frequency, customCron := spec.customCron,
      nextRunTime := spec.nextRunTime, lastRunTime := spec.lastRunTime,
      lastRunStatus := spec.lastRunStatus, isActive := spec.isActive,
      createdAt := some now, updatedAt := some now, options := spec.options }
  (tasks ++ [newTask], newTask, [(NotifLevel.success, "新任务已添加")])

/-- The object spread `{...prevTasks[taskIndex], ...updates, updatedAt:
new Date()}`: present keys of `updates` override, and `updatedAt` is
always the current time (overriding even an `updatedAt` key in
`updates`). -/
def mergeTask (t : SchedulerTask) (u : TaskUpdates) (now : Int) : SchedulerTask :=
  { id := u.id.getD t.id, type := u.type.getD t.type,
    groupId := u.groupId.getD t.groupId, frequency := u.frequency.getD t.frequency,
    customCron := u.customCron.getD t.customCron,
    nextRunTime := u.nextRunTime.getD t.nextRunTime,
    lastRunTime := u.lastRunTime.getD t.lastRunTime,
    lastRunStatus := u.lastRunStatus.getD t.lastRunStatus,
    isActive := u.isActive.getD t.isActive, createdAt := u.createdAt.getD t.createdAt,
    updatedAt := some now, options := u.options.getD t.options }

/-- Replace the first task whose id matches (the `findIndex` followed by
a copy with the merged task at `taskIndex`); `none` when no task
matches. -/
def updateFirst (taskId : String) (u : TaskUpdates) (now : Int) :
    List SchedulerTask → Option (List SchedulerTask)
  | [] => none
  | t :: rest =>
      if t.id == taskId then some (mergeTask t u now :: rest)
      else (updateFirst taskId u now rest).map (t :: ·)

/-- `updateTask` (lines 91-111): on a missing id, emits an error
notification and returns the collection unchanged; otherwise replaces the
matched task with the merged one.  Returns the new collection and the
emitted notifications. -/
def updateTask (tasks : List SchedulerTask) (taskId : String) (u : TaskUpdates)
    (now : Int) : List SchedulerTask × List Notification :=
  match updateFirst taskId u now tasks with
  | none => (tasks, [(NotifLevel.error, "更新任务失败：找不到指定任务")])
  | some ts => (ts, [])

/-- `deleteTask` (lines 114-121): removes every task with the given id
(`filter(t => t.id !== taskId)`) and emits a success notification. -/
def deleteTask (tasks : List SchedulerTask) (taskId : String) :
    List SchedulerTask × List Notification :=
  (tasks.filter (fun t => t.id != taskId), [(NotifLevel.success, "任务已删除")])

/-- Flip `isActive` of the first task whose id matches, refreshing
`updatedAt`; returns the new collection and the new `isActive` value,
`none` when no task matches. -/
def toggleFirst (taskId : String) (now : Int) :
    List SchedulerTask → Option (List SchedulerTask × Bool)
  | [] => none
  | t :: rest =>
      if t.id == taskId then
        some ({ t with isActive := !t.isActive, updatedAt := some now } :: rest,
          !t.isActive)
      else (toggleFirst taskId now rest).map (fun p => (t :: p.1, p.2))

/-- `toggleTaskActive` (lines 124-146): a missing id is a silent no-op;
otherwise flips `isActive` and emits an info notification describing the
new state. -/
def toggleTaskActive (tasks : List SchedulerTask) (taskId : String) (now : Int) :
    List SchedulerTask × List Notification :=
  match toggleFirst taskId now tasks with
  | none => (tasks, [])
  | some (ts, active) =>
      (ts, [(NotifLevel.info, if active then "任务已启用" else "任务已禁用")])

/-- `runTask` (lines 213-249).  `onTaskRun` is the caller-supplied
execution callback (`none` when the caller passed no callback); when
present, `f task = true` models a resolving call and `f task = false` a
throwing/rejecting one.  A missing id throws, is caught, and ends in an
error notification with no task update.  A callback failure updates
`lastRunTime`/`lastRunStatus` only.  On the success path the new
`nextRunTime` is `calculateNextRunTime task` of the pre-run task; the
outer `none` propagates the case in which that computation never returns
under the frozen clock.  Returns the new collection and the emitted
notifications. -/
def runTask (tasks : List SchedulerTask) (taskId : String)
    (onTaskRun : Option (SchedulerTask → Bool)) (now : Int) (fuel : Nat) :
    Option (List SchedulerTask × List Notification) :=
  match tasks.find? (fun t => t.id == taskId) with
  | none => some (tasks, [(NotifLevel.error, "任务执行失败: 任务不存在")])
  | some task =>
      let ok := match onTaskRun with
        | none => true
        | some f => f task
      if ok then
        match calculateNextRunTime fuel task now with
        | none => none
        | some nrt =>
            let r := updateTask tasks taskId
              { lastRunTime := some (some now), lastRunStatus := some (some .success),
                nextRunTime := some nrt } now
            some (r.1, r.2 ++ [(NotifLevel.success, "任务执行成功")])
      else
        let r := updateTask tasks taskId
          { lastRunTime := some (some now), lastRunStatus := some (some .failure) } now
        some (r.1, r.2 ++ [(NotifLevel.error, "任务执行失败")])

/-- `runTask` completes at some fuel (under the frozen clock). -/
def RunTaskTerminates (tasks : List SchedulerTask) (taskId : String)
    (onTaskRun : Option (SchedulerTask → Bool)) (now : Int) : Prop :=
  ∃ fuel, runTask tasks taskId onTaskRun now fuel ≠ none

/-- The tasks a `checkTasks` scan (lines 252-260) selects for execution:
those with `isActive` true and `nextRunTime <= now`. -/
def checkTasks (tasks : List SchedulerTask) (now : Int) : List SchedulerTask :=
  tasks.filter (fun task => task.isActive && jsLe task.nextRunTime (some now))

/-- The ids of a task collection, in order. -/
def taskIds (tasks : List SchedulerTask) : List String :=
  tasks.map (fun t => t.id)

/-- One lifecycle operation on the task collection, with its ambient
inputs (generated id, clock, callback, fuel) made explicit. -/
inductive SchedOp where
  | add (spec : TaskSpec) (genId : String) (now : Int)
  | update (taskId : String) (u : TaskUpdates) (now : Int)
  | toggle (taskId : String) (now : Int)
  | del (taskId : String)
  | run (taskId : String) (onTaskRun : Option (SchedulerTask → Bool)) (now : Int)
      (fuel : Nat)

/-- The collection after one lifecycle operation (a `run` whose
computation never returns leaves the collection as it was). -/
def applyOp (tasks : List SchedulerTask) : SchedOp → List SchedulerTask
  | .add spec genId now => (addTask tasks spec genId now).1
  | .update taskId u now => (updateTask tasks taskId u now).1
  | .toggle taskId now => (toggleTaskActive tasks taskId now).1
  | .del taskId => (deleteTask tasks taskId).1
  | .run taskId f now fuel =>
      match runTask tasks taskId f now fuel with
      | none => tasks
      | some (ts, _) => ts

/-- The collection after a sequence of lifecycle operations. -/
def applyOps (tasks : List SchedulerTask) : List SchedOp → List SchedulerTask
  | [] => tasks
  | op :: rest => applyOps (applyOp tasks op) rest

/-- Side condition under which one operation preserves ids: an `update`
must not carry an `id` key, an `add` must generate a fresh id. -/
def opOk (tasks : List SchedulerTask) : SchedOp → Prop
  | .add _ genId _ => genId ∉ taskIds tasks
  | .update _ u _ => u.id = none
  | _ => True

/-- `opOk` along a whole sequence. -/
def opsOk (tasks : List SchedulerTask) : List SchedOp → Prop
  | [] => True
  | op :: rest => opOk tasks op ∧ opsOk (applyOp tasks op) rest

/-- A concrete task used to evaluate the model at specific inputs. -/
def sampleTask (id : String) (freq : Frequency) (cron : Option String) : SchedulerTask :=
  { id := id, type := TaskType.summary, groupId := "g1", frequency := freq,
    customCron := cron, nextRunTime := some 0, lastRunTime := none,
    lastRunStatus := none, isActive := true, createdAt := some 0,
    updatedAt := some 0, options := none }

/-- A callback that always rejects, used to evaluate the failure path. -/
def alwaysFail : SchedulerTask → Bool := fun _ => false

/-- A concrete task specification used to evaluate the model. -/
def sampleSpec : TaskSpec :=
  { type := TaskType.summary, groupId := "g1", frequency := Frequency.daily,
    customCron := none, nextRunTime := some 0, lastRunTime := none,
    lastRunStatus := none, isActive := true, options := none }

end SchedulerModel

namespace SchedulerModel

/-! ### Calendar lemmas -/

/-- Century-of-era bounds: the century index is in `0..3` and the day of
century in `0..36524`, the top value only in the last century. -/
theorem level_c (doe c : Int) (h0 : 0 ≤ doe) (h1 : doe < 146097)
    (hc : c = doe / 36524 - doe / 146096) :
    0 ≤ c ∧ c ≤ 3 ∧ 0 ≤ doe - 36524 * c ∧ doe - 36524 * c ≤ 36524 ∧
    (doe - 36524 * c = 36524 → c = 3) := by
  omega

/-- Quadrennium-of-century bounds. -/
theorem level_q (dc q dq : Int) (h0 : 0 ≤ dc) (h1 : dc ≤ 36524)
    (hq : q = dc / 1461) (hdq : dq = dc % 1461) :
    0 ≤ q ∧ q ≤ 24 ∧ 0 ≤ dq ∧ dq ≤ 1460 ∧ 1461 * q + dq = dc := by
  omega

/-- Year-of-quadrennium bounds; day 365 exists only as the last day of a
full quadrennium (a leap day). -/
theorem level_y (dq yq : Int) (h0 : 0 ≤ dq) (h1 : dq ≤ 1460)
    (hyq : yq = dq / 365 - dq / 1460) :
    0 ≤ yq ∧ yq ≤ 3 ∧ 0 ≤ dq - 365 * yq ∧ dq - 365 * yq ≤ 365 ∧
    (dq - 365 * yq = 365 → yq = 3 ∧ dq = 1460) := by
  omega

set_option maxHeartbeats 1600000 in
/-- The year-of-era decomposition is correct: the year of era is in
`0..399`, the day of year in `0..365`, the year starts add back to the day
of era, and the day of era is strictly before the start of the next year
of era (counting the quadricentennial leap day). -/
theorem era_decomp (doe c dc q dq yq yoe doy : Int)
    (h0 : 0 ≤ doe) (h1 : doe < 146097)
    (hc : c = doe / 36524 - doe / 146096)
    (hdc : dc = doe - 36524 * c)
    (hq : q = dc / 1461)
    (hdq : dq = dc % 1461)
    (hyq : yq = dq / 365 - dq / 1460)
    (hyoe : yoe = 100 * c + 4 * q + yq)
    (hdoy : doy = dq - 365 * yq) :
    0 ≤ yoe ∧ yoe ≤ 399 ∧ 0 ≤ doy ∧ doy ≤ 365 ∧
    365 * yoe + yoe / 4 - yoe / 100 + doy = doe ∧
    doe < 365 * (yoe + 1) + (yoe + 1) / 4 - (yoe + 1) / 100 + (yoe + 1) / 400 := by
  obtain ⟨b1, b2, b3, b4, b5⟩ := level_c doe c h0 h1 hc
  rw [← hdc] at b3 b4 b5
  obtain ⟨c1, c2, c3, c4, c5⟩ := level_q dc q dq b3 b4 hq hdq
  obtain ⟨d1, d2, d3, d4, d5⟩ := level_y dq yq c3 c4 hyq
  rw [← hdoy] at d3 d4 d5
  clear hc hq hdq hyq
  have hi : yoe / 4 = 25 * c + q := by omega
  have hj : yoe / 100 = c := by omega
  have hi1 : (yoe + 1) / 4 = 25 * c + q + (yq + 1) / 4 := by omega
  have hj1 : (yoe + 1) / 100 = c + (4 * q + yq + 1) / 100 := by omega
  have hk1 : (yoe + 1) / 400 = (100 * c + 4 * q + yq + 1) / 400 := by omega
  by_cases hdoy365 : doy = 365
  · obtain ⟨e1, e2⟩ := d5 hdoy365
    by_cases hq24 : q = 24
    · have hc3 : c = 3 := b5 (by omega)
      omega
    · have hg0 : (4 * q + yq + 1) / 100 = 0 := by omega
      have hk0 : (100 * c + 4 * q + yq + 1) / 400 = 0 := by omega
      omega
  · have hg01 : (4 * q + yq + 1) / 100 = 0 ∨
        (q = 24 ∧ yq = 3 ∧ (4 * q + yq + 1) / 100 = 1) := by
      omega
    have he1 : yq = 3 → (yq + 1) / 4 = 1 := by omega
    have hi0 : 0 ≤ (100 * c + 4 * q + yq + 1) / 400 := by omega
    omega

/-- `era_decomp` instantiated at the components of a day number. -/
theorem era_decompZ (z : Int) :
    0 ≤ yoeOf z ∧ yoeOf z ≤ 399 ∧ 0 ≤ doyOf z ∧ doyOf z ≤ 365 ∧
    365 * yoeOf z + yoeOf z / 4 - yoeOf z / 100 + doyOf z = doeOf z ∧
    doeOf z < 365 * (yoeOf z + 1) + (yoeOf z + 1) / 4 - (yoeOf z + 1) / 100 +
      (yoeOf z + 1) / 400 ∧
    z = eraOf z * 146097 + doeOf z - 719468 ∧
    0 ≤ doeOf z ∧ doeOf z < 146097 := by
  have h0 : 0 ≤ doeOf z := by unfold doeOf; omega
  have h1 : doeOf z < 146097 := by unfold doeOf; omega
  have h := era_decomp (doeOf z) (cOf z) (dcOf z) (qOf z) (dqOf z) (yqOf z) (yoeOf z)
    (doyOf z) h0 h1 rfl rfl rfl rfl rfl rfl rfl
  have h2 : z = eraOf z * 146097 + doeOf z - 719468 := by unfold eraOf doeOf; omega
  exact ⟨h.1, h.2.1, h.2.2.1, h.2.2.2.1, h.2.2.2.2.1, h.2.2.2.2.2, h2, h0, h1⟩

/-- Month extraction from the day of year: the March-based month index
is in `0..11` and the day of year lies inside that month, yielding a day
of month in `1..31`. -/
theorem month_decompZ (z : Int) :
    0 ≤ mpOf z ∧ mpOf z ≤ 11 ∧ (153 * mpOf z + 2) / 5 ≤ doyOf z ∧
    doyOf z < (153 * (mpOf z + 1) + 2) / 5 ∧
    1 ≤ doyOf z - (153 * mpOf z + 2) / 5 + 1 ∧
    doyOf z - (153 * mpOf z + 2) / 5 + 1 ≤ 31 := by
  have h := era_decompZ z
  have hmp : mpOf z = (5 * doyOf z + 2) / 153 := rfl
  omega

set_option maxHeartbeats 1600000 in
/-- `firstDayOfMonth` evaluated at a civil-shaped year/month pair. -/
theorem fdom_civil (era yoe mp y m0 : Int)
    (h1 : 0 ≤ yoe) (h2 : yoe ≤ 399) (h3 : 0 ≤ mp) (h4 : mp ≤ 11)
    (hy : y = yoe + era * 400 + (if 10 ≤ mp then 1 else 0))
    (hm : m0 = mp + (if mp < 10 then 2 else -10)) :
    firstDayOfMonth y m0 = era * 146097 + 365 * yoe + yoe / 4 - yoe / 100 +
      (153 * mp + 2) / 5 - 719468 := by
  unfold firstDayOfMonth yAdj mpAdj
  split_ifs at hy hm ⊢ <;> omega

set_option maxHeartbeats 1600000 in
/-- `firstDayOfMonth` of the month after a civil-shaped year/month pair:
the next March-based month of the same year of era, or the start of the
next year of era after February. -/
theorem fdom_next_civil (era yoe mp y m0 : Int)
    (h1 : 0 ≤ yoe) (h2 : yoe ≤ 399) (h3 : 0 ≤ mp) (h4 : mp ≤ 11)
    (hy : y = yoe + era * 400 + (if 10 ≤ mp then 1 else 0))
    (hm : m0 = mp + (if mp < 10 then 2 else -10)) :
    (mp ≤ 10 → firstDayOfMonth y (m0 + 1) =
      era * 146097 + 365 * yoe + yoe / 4 - yoe / 100 + (153 * (mp + 1) + 2) / 5 -
        719468) ∧
    (mp = 11 → firstDayOfMonth y (m0 + 1) =
      era * 146097 + 365 * (yoe + 1) + (yoe + 1) / 4 - (yoe + 1) / 100 +
        (yoe + 1) / 400 - 719468) := by
  unfold firstDayOfMonth yAdj mpAdj
  split_ifs at hy hm ⊢ <;> constructor <;> intro hc <;> omega

set_option maxHeartbeats 1600000 in
/-- The civil decomposition is consistent: the first day of the obtained
month plus the day of month recovers the day number, the day number is
strictly before the first day of the next month, and the month and day
fields are in range. -/
theorem civil_spec (z y m0 dom : Int) (h : civilFromDays z = (y, m0, dom)) :
    firstDayOfMonth y m0 + dom - 1 = z ∧
    z < firstDayOfMonth y (m0 + 1) ∧
    1 ≤ dom ∧ dom ≤ 31 ∧ 0 ≤ m0 ∧ m0 ≤ 11 := by
  rw [civilFromDays, Prod.mk.injEq, Prod.mk.injEq] at h
  obtain ⟨hy, hm, hd⟩ := h
  have hera := era_decompZ z
  have hmon := month_decompZ z
  have hf := fdom_civil (eraOf z) (yoeOf z) (mpOf z) y m0
    (by omega) (by omega) (by omega) (by omega)
    (by split_ifs <;> omega) (by split_ifs <;> omega)
  have hfn := fdom_next_civil (eraOf z) (yoeOf z) (mpOf z) y m0
    (by omega) (by omega) (by omega) (by omega)
    (by split_ifs <;> omega) (by split_ifs <;> omega)
  by_cases hmp11 : mpOf z = 11
  · have h2 := hfn.2 hmp11
    split_ifs at hy hm <;> omega
  · have h2 := hfn.1 (by omega)
    split_ifs at hy hm <;> omega

set_option maxHeartbeats 1600000 in
/-- `firstDayOfMonth` depends only on the combined month count
`12 * y + m`. -/
theorem fdom_mu (y m : Int) : firstDayOfMonth y m = firstDayOfMonth 0 (12 * y + m) := by
  unfold firstDayOfMonth yAdj mpAdj
  have h1 : (12 * y + m) / 12 = y + m / 12 := by omega
  have h2 : (12 * y + m) % 12 = m % 12 := by omega
  rw [h1, h2]
  split_ifs <;> omega

set_option maxHeartbeats 1600000 in
/-- Consecutive months start on strictly increasing days. -/
theorem fdom_succ (μ : Int) : firstDayOfMonth 0 μ < firstDayOfMonth 0 (μ + 1) := by
  unfold firstDayOfMonth yAdj mpAdj
  split_ifs <;> omega

/-- Month starts are strictly monotone in the month count. -/
theorem fdom_strictMono : StrictMono (fun μ => firstDayOfMonth 0 μ) :=
  strictMono_int_of_lt_succ fdom_succ

end SchedulerModel

namespace SchedulerModel

/-! ### The `nextRun` candidate, by frequency -/

/-- Setting 09:00:00.000 on a valid date yields 09:00 of the same day. -/
theorem nine_chain (x : Int) :
    jsSetMilliseconds (jsSetSeconds (jsSetMinutes (jsSetHours (some x) (some 9))
      (some 0)) (some 0)) (some 0) = some (x / 86400000 * 86400000 + 32400000) := by
  simp only [jsSetHours, jsSetMinutes, jsSetSeconds, jsSetMilliseconds,
    getHours, getMinutes, getSeconds, getMilliseconds, Option.some.injEq]
  omega

/-- The `hourly` mutations yield the next top of the hour. -/
theorem hour_chain (x : Int) :
    jsSetMilliseconds (jsSetSeconds (jsSetMinutes (jsSetHours (some x)
      (some (getHours x + 1))) (some 0)) (some 0)) (some 0) =
      some (x / 3600000 * 3600000 + 3600000) := by
  simp only [jsSetHours, jsSetMinutes, jsSetSeconds, jsSetMilliseconds,
    getHours, getMinutes, getSeconds, getMilliseconds, Option.some.injEq]
  omega

/-- `hourly`: the candidate is the next top of the hour, strictly after
`now`. -/
theorem cand_hourly (task : SchedulerTask) (now : Int) (h : task.frequency = .hourly) :
    calcCandidate task now = some (now / 3600000 * 3600000 + 3600000) ∧
    now < now / 3600000 * 3600000 + 3600000 := by
  rw [calcCandidate, h, hour_chain]
  exact ⟨rfl, by omega⟩

/-- `daily`: the candidate is 09:00 of the next day, strictly after
`now`. -/
theorem cand_daily (task : SchedulerTask) (now : Int) (h : task.frequency = .daily) :
    calcCandidate task now = some ((now / 86400000 + 1) * 86400000 + 32400000) ∧
    now < (now / 86400000 + 1) * 86400000 + 32400000 := by
  rw [calcCandidate, h]
  simp only [jsSetDate]
  rw [show (some (now + (getDate now + 1 - getDate now) * 86400000) : JSDate) =
    some (now + 86400000) by ring_nf, nine_chain]
  constructor
  · congr 1
    omega
  · omega

/-- `default` branch (unrecognised frequency): the candidate is exactly
24 hours after `now`. -/
theorem cand_other (task : SchedulerTask) (now : Int) (s : String)
    (h : task.frequency = .other s) :
    calcCandidate task now = some (now + 86400000) ∧ now < now + 86400000 := by
  rw [calcCandidate, h]
  simp only [jsSetDate]
  exact ⟨by congr 2; omega, by omega⟩

/-- `weekly`: since `getDay` is in `0..6`, the offset `7 - getDay() || 7`
is just `7 - getDay()`, so the candidate is 09:00 of the coming *Sunday*
(day of week 0), strictly after `now`. -/
theorem cand_weekly (task : SchedulerTask) (now : Int) (h : task.frequency = .weekly) :
    calcCandidate task now =
      some ((now / 86400000 + 7 - getDay now) * 86400000 + 32400000) ∧
    now < (now / 86400000 + 7 - getDay now) * 86400000 + 32400000 ∧
    getDay ((now / 86400000 + 7 - getDay now) * 86400000 + 32400000) = 0 := by
  have hoff : (if 7 - getDay now = 0 then 7 else 7 - getDay now) = 7 - getDay now := by
    unfold getDay
    split_ifs <;> omega
  simp only [calcCandidate, h]
  rw [hoff]
  simp only [jsSetDate]
  rw [show (some (now + (getDate now + (7 - getDay now) - getDate now) * 86400000) :
    JSDate) = some (now + (7 - getDay now) * 86400000) by ring_nf, nine_chain]
  refine ⟨by congr 1; unfold getDay; omega, by unfold getDay; omega, ?_⟩
  unfold getDay
  omega

/-- `monthly`: the candidate (09:00 of the first day of the month that
`setMonth(m+1)` lands in) is strictly after `now`, whatever the
day-of-month overflow did. -/
theorem cand_monthly (task : SchedulerTask) (now : Int) (h : task.frequency = .monthly) :
    ∃ v, calcCandidate task now = some v ∧ now < v := by
  have hciv1 : civilFromDays (now / 86400000) =
      (getFullYear now, getMonth now, getDate now) := rfl
  obtain ⟨rt1, lt1, hdom1, hdom1b, hm1, hm1b⟩ := civil_spec _ _ _ _ hciv1
  simp only [calcCandidate, h, jsSetMonth, jsSetDate]
  set u := makeDay (getFullYear now) (getMonth now + 1) (getDate now) * 86400000 +
    timeOfDay now with hu
  have htod : 0 ≤ timeOfDay now ∧ timeOfDay now < 86400000 := by
    unfold timeOfDay
    omega
  have hnu : u / 86400000 = makeDay (getFullYear now) (getMonth now + 1) (getDate now) := by
    omega
  have hciv2 : civilFromDays (u / 86400000) =
      (getFullYear u, getMonth u, getDate u) := rfl
  obtain ⟨rt2, lt2, hdom2, hdom2b, hm2, hm2b⟩ := civil_spec _ _ _ _ hciv2
  rw [nine_chain]
  refine ⟨_, rfl, ?_⟩
  have hv2 : u + (1 - getDate u) * 86400000 =
      (u / 86400000 + 1 - getDate u) * 86400000 + timeOfDay now := by
    omega
  rw [hv2]
  have hfloor : ((u / 86400000 + 1 - getDate u) * 86400000 + timeOfDay now) / 86400000 =
      u / 86400000 + 1 - getDate u := by
    omega
  rw [hfloor]
  have hb1 : firstDayOfMonth (getFullYear now) (getMonth now + 1) ≤ u / 86400000 := by
    rw [hnu]
    unfold makeDay
    omega
  have hb2 : u / 86400000 - getDate u + 1 =
      firstDayOfMonth (getFullYear u) (getMonth u) := by
    omega
  have hmu1 : firstDayOfMonth (getFullYear u) (getMonth u) =
      firstDayOfMonth 0 (12 * getFullYear u + getMonth u) := fdom_mu _ _
  have hmu2 : firstDayOfMonth (getFullYear u) (getMonth u + 1) =
      firstDayOfMonth 0 (12 * getFullYear u + getMonth u + 1) := by
    rw [fdom_mu]
    congr 1
    ring
  have hmu3 : firstDayOfMonth (getFullYear now) (getMonth now + 1) =
      firstDayOfMonth 0 (12 * getFullYear now + getMonth now + 1) := by
    rw [fdom_mu]
    congr 1
    ring
  have hge : firstDayOfMonth 0 (12 * getFullYear now + getMonth now + 1) ≤
      firstDayOfMonth 0 (12 * getFullYear u + getMonth u) := by
    by_contra hlt
    push_neg at hlt
    have hab : 12 * getFullYear u + getMonth u <
        12 * getFullYear now + getMonth now + 1 :=
      fdom_strictMono.lt_iff_lt.mp hlt
    have : firstDayOfMonth 0 (12 * getFullYear u + getMonth u + 1) ≤
        firstDayOfMonth 0 (12 * getFullYear now + getMonth now + 1) :=
      fdom_strictMono.monotone (by omega)
    rw [← hmu2] at this
    rw [← hmu3] at this
    omega
  rw [← hmu1] at hge
  rw [← hmu3] at hge
  omega

/-! ### Termination behaviour of `calculateNextRunTime` -/

/-- With frequency `custom` and no `customCron`, the candidate stays equal
to `now`, the guard `nextRun <= now` holds, and the recursive call repeats
the identical computation: under the frozen clock the function never
returns, at any fuel. -/
theorem calc_diverges : ∀ (fuel : Nat) (task : SchedulerTask) (now : Int),
    task.frequency = .custom → task.customCron = none →
    calculateNextRunTime fuel task now = none := by
  intro fuel
  induction fuel with
  | zero => intro task now _ _; rfl
  | succ n ih =>
      intro task now h1 h2
      simp only [calculateNextRunTime, calcCandidate, h1, h2]
      have hle : jsLe (some now) (some now) = true := by
        simp [jsLe]
      rw [hle]
      simp only [if_true]
      exact ih _ now rfl rfl

/-- For every frequency other than `custom`, the candidate is a valid
date strictly after `now`, the guard is not taken, and the function
returns it immediately (one unit of fuel suffices). -/
theorem calc_nonCustom (fuel : Nat) (task : SchedulerTask) (now : Int)
    (h : task.frequency ≠ .custom) :
    ∃ v : Int, calcCandidate task now = some v ∧ now < v ∧
      calculateNextRunTime (fuel + 1) task now = some (some v) := by
  have hcand : ∃ v : Int, calcCandidate task now = some v ∧ now < v := by
    rcases hf : task.frequency with _ | _ | _ | _ | _ | s
    · obtain ⟨hc, hlt⟩ := cand_hourly task now hf
      exact ⟨_, hc, hlt⟩
    · obtain ⟨hc, hlt⟩ := cand_daily task now hf
      exact ⟨_, hc, hlt⟩
    · obtain ⟨hc, hlt, _⟩ := cand_weekly task now hf
      exact ⟨_, hc, hlt⟩
    · exact cand_monthly task now hf
    · exact absurd hf h
    · obtain ⟨hc, hlt⟩ := cand_other task now s hf
      exact ⟨_, hc, hlt⟩
  obtain ⟨v, hc, hlt⟩ := hcand
  refine ⟨v, hc, hlt, ?_⟩
  simp only [calculateNextRunTime, hc]
  have hle : jsLe (some v) (some now) = false := by
    simp [jsLe]
    omega
  rw [hle]
  simp only [Bool.false_eq_true, if_false]

end SchedulerModel

namespace SchedulerModel

theorem mergeTask_id (t : SchedulerTask) (u : TaskUpdates) (now : Int)
    (hu : u.id = none) : (mergeTask t u now).id = t.id := by
  simp [mergeTask, hu]

theorem updateFirst_none (taskId : String) (u : TaskUpdates) (now : Int) :
    ∀ tasks : List SchedulerTask, taskId ∉ taskIds tasks →
      updateFirst taskId u now tasks = none := by
  intro tasks
  induction tasks with
  | nil => intro _; rfl
  | cons t rest ih =>
      intro h
      simp only [taskIds, List.map_cons, List.mem_cons, not_or] at h
      have hne : ¬ (t.id == taskId) = true := by
        simp only [beq_iff_eq]
        exact fun hh => h.1 hh.symm
      simp only [updateFirst, if_neg hne]
      rw [ih (by simp only [taskIds]; exact h.2)]
      rfl

theorem updateTask_absent (tasks : List SchedulerTask) (taskId : String)
    (u : TaskUpdates) (now : Int) (h : taskId ∉ taskIds tasks) :
    updateTask tasks taskId u now =
      (tasks, [(NotifLevel.error, "更新任务失败：找不到指定任务")]) := by
  rw [updateTask, updateFirst_none taskId u now tasks h]

theorem updateFirst_ids (taskId : String) (u : TaskUpdates) (now : Int)
    (hu : u.id = none) :
    ∀ tasks ts : List SchedulerTask, updateFirst taskId u now tasks = some ts →
      taskIds ts = taskIds tasks := by
  intro tasks
  induction tasks with
  | nil => intro ts h; simp [updateFirst] at h
  | cons t rest ih =>
      intro ts h
      simp only [updateFirst] at h
      by_cases hb : (t.id == taskId) = true
      · rw [if_pos hb] at h
        obtain rfl : mergeTask t u now :: rest = ts := Option.some.inj h
        simp only [taskIds, List.map_cons, mergeTask_id t u now hu]
      · rw [if_neg hb] at h
        rcases hrest : updateFirst taskId u now rest with _ | ts'
        · rw [hrest] at h
          simp at h
        · rw [hrest] at h
          obtain rfl : t :: ts' = ts := Option.some.inj h
          simp only [taskIds, List.map_cons]
          have h2 := ih ts' hrest
          simp only [taskIds] at h2
          rw [h2]

theorem updateTask_ids (tasks : List SchedulerTask) (taskId : String)
    (u : TaskUpdates) (now : Int) (hu : u.id = none) :
    taskIds (updateTask tasks taskId u now).1 = taskIds tasks := by
  rw [updateTask]
  rcases hres : updateFirst taskId u now tasks with _ | ts
  · rfl
  · exact updateFirst_ids taskId u now hu tasks ts hres

theorem updateFirst_find2 (taskId : String) (u : TaskUpdates) (now : Int)
    (hu : u.id = none) :
    ∀ (tasks : List SchedulerTask) (task : SchedulerTask),
      tasks.find? (fun t => t.id == taskId) = some task →
      ∃ ts, updateFirst taskId u now tasks = some ts ∧
        ts.find? (fun t => t.id == taskId) = some (mergeTask task u now) := by
  intro tasks
  induction tasks with
  | nil => intro task h; simp at h
  | cons t rest ih =>
      intro task h
      by_cases hb : (t.id == taskId) = true
      · simp only [List.find?, hb] at h
        obtain rfl : t = task := Option.some.inj h
        refine ⟨mergeTask t u now :: rest, by simp only [updateFirst, if_pos hb], ?_⟩
        have hbm : ((mergeTask t u now).id == taskId) = true := by
          rw [mergeTask_id t u now hu]
          exact hb
        simp only [List.find?, hbm]
      · have hbf : (t.id == taskId) = false := by
          simpa using hb
        simp only [List.find?, hbf] at h
        obtain ⟨ts', hts', hfind⟩ := ih task h
        refine ⟨t :: ts', ?_, ?_⟩
        · simp only [updateFirst, if_neg hb, hts']
          rfl
        · simp only [List.find?, hbf]
          exact hfind

end SchedulerModel

namespace SchedulerModel

theorem toggleFirst_ids (taskId : String) (now : Int) :
    ∀ tasks ts : List SchedulerTask, ∀ b : Bool,
      toggleFirst taskId now tasks = some (ts, b) → taskIds ts = taskIds tasks := by
  intro tasks
  induction tasks with
  | nil => intro ts b h; simp [toggleFirst] at h
  | cons t rest ih =>
      intro ts b h
      simp only [toggleFirst] at h
      by_cases hb : (t.id == taskId) = true
      · rw [if_pos hb] at h
        obtain ⟨h1, _⟩ := Prod.mk.injEq .. ▸ Option.some.inj h
        subst h1
        simp only [taskIds, List.map_cons]
      · rw [if_neg hb] at h
        rcases hrest : toggleFirst taskId now rest with _ | p
        · rw [hrest] at h
          simp at h
        · rw [hrest] at h
          obtain ⟨h1, _⟩ := Prod.mk.injEq .. ▸ Option.some.inj h
          subst h1
          simp only [taskIds, List.map_cons]
          have h2 := ih p.1 p.2 hrest
          simp only [taskIds] at h2
          rw [h2]

theorem toggleTaskActive_ids (tasks : List SchedulerTask) (taskId : String) (now : Int) :
    taskIds (toggleTaskActive tasks taskId now).1 = taskIds tasks := by
  rw [toggleTaskActive]
  rcases hres : toggleFirst taskId now tasks with _ | ⟨ts, b⟩
  · rfl
  · exact toggleFirst_ids taskId now tasks ts b hres

theorem deleteTask_ids (tasks : List SchedulerTask) (taskId : String) :
    taskIds (deleteTask tasks taskId).1 = (taskIds tasks).filter (fun s => s != taskId) := by
  rw [deleteTask]
  induction tasks with
  | nil => rfl
  | cons t rest ih =>
      simp only [List.filter_cons, taskIds, List.map_cons]
      by_cases hb : (t.id != taskId) = true
      · rw [if_pos hb, if_pos hb]
        simp only [List.map_cons]
        simp only [taskIds] at ih
        rw [ih]
      · rw [if_neg hb, if_neg hb]
        simp only [taskIds] at ih
        exact ih

theorem addTask_ids (tasks : List SchedulerTask) (spec : TaskSpec) (genId : String)
    (now : Int) :
    taskIds (addTask tasks spec genId now).1 = taskIds tasks ++ [genId] := by
  simp [addTask, taskIds]

theorem runTask_ids (tasks : List SchedulerTask) (taskId : String)
    (onTaskRun : Option (SchedulerTask → Bool)) (now : Int) (fuel : Nat) :
    ∀ ts notifs, runTask tasks taskId onTaskRun now fuel = some (ts, notifs) →
      taskIds ts = taskIds tasks := by
  intro ts notifs h
  rw [runTask] at h
  rcases hfind : tasks.find? (fun t => t.id == taskId) with _ | task
  · simp only [hfind] at h
    obtain ⟨h1, _⟩ := Prod.mk.injEq .. ▸ Option.some.inj h
    subst h1
    rfl
  · simp only [hfind] at h
    rcases onTaskRun with _ | f
    · simp only [eq_self_iff_true, if_true] at h
      rcases hcalc : calculateNextRunTime fuel task now with _ | nrt
      · simp [hcalc] at h
      · simp only [hcalc] at h
        obtain ⟨h1, _⟩ := Prod.mk.injEq .. ▸ Option.some.inj h
        subst h1
        exact updateTask_ids tasks taskId _ now rfl
    · by_cases hok : f task = true
      · simp only [hok, eq_self_iff_true, if_true] at h
        rcases hcalc : calculateNextRunTime fuel task now with _ | nrt
        · simp [hcalc] at h
        · simp only [hcalc] at h
          obtain ⟨h1, _⟩ := Prod.mk.injEq .. ▸ Option.some.inj h
          subst h1
          exact updateTask_ids tasks taskId _ now rfl
      · simp only [if_neg hok] at h
        obtain ⟨h1, _⟩ := Prod.mk.injEq .. ▸ Option.some.inj h
        subst h1
        exact updateTask_ids tasks taskId _ now rfl

end SchedulerModel

namespace SchedulerModel

theorem runTask_failure (tasks : List SchedulerTask) (task : SchedulerTask)
    (f : SchedulerTask → Bool) (taskId : String) (now : Int) (fuel : Nat)
    (hfind : tasks.find? (fun t => t.id == taskId) = some task)
    (hfail : f task = false) :
    ∃ ts, runTask tasks taskId (some f) now fuel =
        some (ts, [(NotifLevel.error, "任务执行失败")]) ∧
      ts.find? (fun t => t.id == taskId) = some
        ({ task with
            lastRunTime := some (some now)
            lastRunStatus := some RunStatus.failure
            updatedAt := some now } : SchedulerTask) := by
  obtain ⟨ts, hts, hfindts⟩ := updateFirst_find2 taskId
    { lastRunTime := some (some now), lastRunStatus := some (some RunStatus.failure) }
    now rfl tasks task hfind
  refine ⟨ts, ?_, ?_⟩
  · rw [runTask]
    simp only [hfind, hfail, Bool.false_eq_true, if_false, updateTask, hts, List.nil_append]
  · exact hfindts

theorem runTask_success_noCallback (tasks : List SchedulerTask) (task : SchedulerTask)
    (taskId : String) (now : Int) (fuel : Nat) (nrt : JSDate)
    (hfind : tasks.find? (fun t => t.id == taskId) = some task)
    (hcalc : calculateNextRunTime fuel task now = some nrt) :
    ∃ ts, runTask tasks taskId none now fuel =
        some (ts, [(NotifLevel.success, "任务执行成功")]) ∧
      ts.find? (fun t => t.id == taskId) = some
        ({ task with
            nextRunTime := nrt
            lastRunTime := some (some now)
            lastRunStatus := some RunStatus.success
            updatedAt := some now } : SchedulerTask) := by
  obtain ⟨ts, hts, hfindts⟩ := updateFirst_find2 taskId
    { nextRunTime := some nrt, lastRunTime := some (some now),
      lastRunStatus := some (some RunStatus.success) }
    now rfl tasks task hfind
  refine ⟨ts, ?_, ?_⟩
  · rw [runTask]
    simp only [hfind, eq_self_iff_true, if_true, hcalc, updateTask, hts, List.nil_append]
  · exact hfindts

end SchedulerModel

namespace SchedulerModel

theorem nodup_applyOp (tasks : List SchedulerTask) (op : SchedOp) (hok : opOk tasks op)
    (hnd : (taskIds tasks).Nodup) : (taskIds (applyOp tasks op)).Nodup := by
  cases op with
  | add spec genId now =>
      rw [applyOp, addTask_ids]
      have hfresh : genId ∉ taskIds tasks := hok
      exact List.Nodup.append hnd (List.nodup_singleton genId)
        (by simp [List.disjoint_singleton, hfresh])
  | update taskId u now =>
      rw [applyOp, updateTask_ids tasks taskId u now hok]
      exact hnd
  | toggle taskId now =>
      rw [applyOp, toggleTaskActive_ids]
      exact hnd
  | del taskId =>
      rw [applyOp, deleteTask_ids]
      exact hnd.filter _
  | run taskId f now fuel =>
      rw [applyOp]
      rcases hr : runTask tasks taskId f now fuel with _ | ⟨ts, notifs⟩
      · exact hnd
      · rw [runTask_ids tasks taskId f now fuel ts notifs hr]
        exact hnd

theorem nodup_applyOps (ops : List SchedOp) : ∀ tasks : List SchedulerTask,
    (taskIds tasks).Nodup → opsOk tasks ops → (taskIds (applyOps tasks ops)).Nodup := by
  induction ops with
  | nil => intro tasks hnd _; exact hnd
  | cons op rest ih =>
      intro tasks hnd hok
      rw [applyOps]
      exact ih (applyOp tasks op) (nodup_applyOp tasks op hok.1 hnd) hok.2

end SchedulerModel

namespace SchedulerModel

/-! ### Claims -/

/-- Claim C1: the claim asserts that for every frequency and any
`customCron`, `calculateNextRunTime` returns a valid timestamp strictly
after `now`.  At the failing input (frequency `custom`, malformed
`customCron` `"abc"`, `now` = 2024-01-03 12:00 UTC) the code instead
returns an Invalid Date: `Number("abc")` is `NaN`, `setHours(NaN)`
poisons the date, and the `nextRun <= now` guard is false on `NaN`, so
the Invalid Date is returned (the `catch` fallback is dead code because
nothing in the `try` throws). -/
theorem C1_custom_malformed_returns_invalid_date :
    calculateNextRunTime 1 (sampleTask "t1" Frequency.custom (some "abc"))
      1704283200000 = some none := by
  rfl

/-- Claim C2: the claim (and the source comment `下周一`) says the weekly
rule lands on a Monday at 09:00.  At `now` = Wednesday 2024-01-03 12:00
UTC the code returns 2024-01-07 09:00, which is a Sunday (day of week 0,
not Monday = 1): the offset `7 - getDay() || 7` lands on the coming
Sunday. -/
theorem C2_weekly_lands_on_sunday :
    calculateNextRunTime 1 (sampleTask "t1" Frequency.weekly none) 1704283200000 =
      some (some 1704618000000) ∧
    getDay 1704618000000 = 0 ∧ ¬ getDay 1704618000000 = 1 ∧
    getHours 1704618000000 = 9 ∧ (1704283200000 : Int) < 1704618000000 := by
  exact ⟨rfl, rfl, by decide, rfl, by decide⟩

/-- Claim C3 (counterexample): with frequency `custom` and no
`customCron`, the candidate equals `now`, the guard triggers, and the
recursive call repeats an identical computation (the reference is not
advanced: only the unused `lastRunTime` changes), so `calculateNextRunTime`
never terminates under the frozen clock. -/
theorem C3_counterexample_custom_diverges :
    ¬ CalcTerminates (sampleTask "t1" Frequency.custom none) 1704283200000 := by
  rintro ⟨fuel, hne⟩
  exact hne (calc_diverges fuel _ _ rfl rfl)

/-- Claim C3 (amended): for every frequency other than `custom` the
computed candidate is a valid timestamp strictly after `now`, so the
recursion guard is never taken and `calculateNextRunTime` terminates
immediately (any positive fuel suffices); for `custom` the recursive
re-invocation does not advance the reference and may never terminate. -/
theorem C3_amended_nonCustom_terminates (fuel : Nat) (task : SchedulerTask) (now : Int)
    (h : task.frequency ≠ Frequency.custom) :
    ∃ v : Int, calculateNextRunTime (fuel + 1) task now = some (some v) ∧ now < v := by
  obtain ⟨v, _, hlt, heq⟩ := calc_nonCustom fuel task now h
  exact ⟨v, heq, hlt⟩

/-- Claim C3 (witness): the amended theorem applied to a concrete `daily`
task at 2024-01-03 12:00 UTC; the computation returns 2024-01-04 09:00. -/
theorem C3_witness :
    calculateNextRunTime 1 (sampleTask "t1" Frequency.daily none) 1704283200000 =
      some (some 1704358800000) ∧ (1704283200000 : Int) < 1704358800000 := by
  obtain ⟨v, heq, hlt⟩ := C3_amended_nonCustom_terminates 0
    (sampleTask "t1" Frequency.daily none) 1704283200000 (by decide)
  have hev : calculateNextRunTime 1 (sampleTask "t1" Frequency.daily none)
      1704283200000 = some (some 1704358800000) := by rfl
  rw [hev] at heq
  obtain rfl : (1704358800000 : Int) = v := Option.some.inj (Option.some.inj heq)
  exact ⟨hev, hlt⟩

/-- Claim C4: the claim says the monthly rule yields 09:00 on day 1 of
the month immediately following `now`'s month, including near month ends.
At `now` = 2024-01-31 12:00 UTC the code instead returns 2024-03-01 09:00
(month index 2, March): `setMonth(1)` first normalises Feb 31 to`
March 2 and only then `setDate(1)` snaps to the 1st — of March, not
February (2024-02-01 09:00 would be time value 1706778000000). -/
theorem C4_monthly_overflows_to_march :
    calculateNextRunTime 1 (sampleTask "t1" Frequency.monthly none) 1706702400000 =
      some (some 1709283600000) ∧
    getFullYear 1709283600000 = 2024 ∧ getMonth 1709283600000 = 2 ∧
    getDate 1709283600000 = 1 ∧ getHours 1709283600000 = 9 ∧
    ¬ getMonth 1709283600000 = 1 := by
  exact ⟨rfl, rfl, rfl, rfl, rfl, by decide⟩

/-- Claim C5 (counterexample): `updateTask` spreads the partial-fields
argument over the task, so an update carrying an `id` key changes the id
of the task that remains in the collection: starting from a task with id
`"a"`, `updateTask "a" {id := "b"}` leaves the collection holding id
`"b"`. -/
theorem C5_counterexample_update_changes_id :
    taskIds (updateTask [sampleTask "a" Frequency.daily none] "a"
      { id := some "b" } 0).1 = ["b"] ∧
    taskIds [sampleTask "a" Frequency.daily none] = ["a"] := by
  exact ⟨rfl, rfl⟩

/-- Claim C5 (amended): provided every `updateTask` in the sequence
carries no `id` key and every `addTask` generates a fresh id, ids are
preserved and stay pairwise distinct: a sequence of lifecycle operations
keeps the id list duplicate-free, and `updateTask`, `toggleTaskActive`
and `runTask` leave the id list exactly unchanged (so the id of a task
that remains in the collection never changes); `deleteTask` only removes
ids and `addTask` only appends the generated id. -/
theorem C5_amended_ids_invariant :
    (∀ (tasks : List SchedulerTask) (ops : List SchedOp),
      (taskIds tasks).Nodup → opsOk tasks ops → (taskIds (applyOps tasks ops)).Nodup) ∧
    (∀ (tasks : List SchedulerTask) (taskId : String) (u : TaskUpdates) (now : Int),
      u.id = none → taskIds (updateTask tasks taskId u now).1 = taskIds tasks) ∧
    (∀ (tasks : List SchedulerTask) (taskId : String) (now : Int),
      taskIds (toggleTaskActive tasks taskId now).1 = taskIds tasks) ∧
    (∀ (tasks : List SchedulerTask) (taskId : String)
      (f : Option (SchedulerTask → Bool)) (now : Int) (fuel : Nat)
      (ts : List SchedulerTask) (notifs : List Notification),
      runTask tasks taskId f now fuel = some (ts, notifs) →
        taskIds ts = taskIds tasks) ∧
    (∀ (tasks : List SchedulerTask) (taskId : String),
      taskIds (deleteTask tasks taskId).1 =
        (taskIds tasks).filter (fun s => s != taskId)) ∧
    (∀ (tasks : List SchedulerTask) (spec : TaskSpec) (genId : String) (now : Int),
      taskIds (addTask tasks spec genId now).1 = taskIds tasks ++ [genId]) := by
  refine ⟨fun tasks ops => nodup_applyOps ops tasks,
    fun tasks taskId u now hu => updateTask_ids tasks taskId u now hu,
    fun tasks taskId now => toggleTaskActive_ids tasks taskId now,
    fun tasks taskId f now fuel ts notifs h => runTask_ids tasks taskId f now fuel ts notifs h,
    fun tasks taskId => deleteTask_ids tasks taskId,
    fun tasks spec genId now => addTask_ids tasks spec genId now⟩

/-- Claim C5 (witness): the amended invariant applied to a concrete
sequence (add a fresh task, update it without an id key, toggle it, run
it, delete it) starting from the empty collection. -/
theorem C5_witness :
    (taskIds (applyOps [] [SchedOp.add sampleSpec "a" 0,
      SchedOp.update "a" { isActive := some false } 1, SchedOp.toggle "a" 2,
      SchedOp.run "a" none 3 1, SchedOp.del "a"])).Nodup := by
  refine C5_amended_ids_invariant.1 [] _ (by simp [taskIds]) ?_
  exact ⟨by simp [taskIds, opOk], ⟨rfl, trivial, trivial, trivial, trivial⟩⟩

end SchedulerModel

namespace SchedulerModel

/-- Claim C6: if the execution callback of `runTask` throws or rejects on
an existing task, the task afterwards has `lastRunStatus = failure` and
`lastRunTime` set to the run time, while `nextRunTime` keeps exactly its
prior value (the failure-path `updateTask` carries no `nextRunTime`
key). -/
theorem C6_failure_keeps_nextRunTime (tasks : List SchedulerTask)
    (task : SchedulerTask) (f : SchedulerTask → Bool) (taskId : String) (now : Int)
    (fuel : Nat) (hfind : tasks.find? (fun t => t.id == taskId) = some task)
    (hfail : f task = false) :
    ∃ ts, runTask tasks taskId (some f) now fuel =
        some (ts, [(NotifLevel.error, "任务执行失败")]) ∧
      ts.find? (fun t => t.id == taskId) = some
        ({ task with
            lastRunTime := some (some now)
            lastRunStatus := some RunStatus.failure
            updatedAt := some now } : SchedulerTask) :=
  runTask_failure tasks task f taskId now fuel hfind hfail

/-- Claim C6 (witness): the failure path evaluated on a concrete
single-task collection with an always-rejecting callback. -/
theorem C6_witness :
    runTask [sampleTask "a" Frequency.daily none] "a" (some alwaysFail) 5 1 =
      some ([({ sampleTask "a" Frequency.daily none with
        lastRunTime := some (some 5)
        lastRunStatus := some RunStatus.failure
        updatedAt := some 5 } : SchedulerTask)],
        [(NotifLevel.error, "任务执行失败")]) ∧
    ([({ sampleTask "a" Frequency.daily none with
        lastRunTime := some (some 5)
        lastRunStatus := some RunStatus.failure
        updatedAt := some 5 } : SchedulerTask)].find?
          (fun t => t.id == "a")) = some
      ({ sampleTask "a" Frequency.daily none with
        lastRunTime := some (some 5)
        lastRunStatus := some RunStatus.failure
        updatedAt := some 5 } : SchedulerTask) := by
  obtain ⟨ts, h1, h2⟩ := C6_failure_keeps_nextRunTime
    [sampleTask "a" Frequency.daily none] (sampleTask "a" Frequency.daily none)
    alwaysFail "a" 5 1 rfl rfl
  have hev : runTask [sampleTask "a" Frequency.daily none] "a" (some alwaysFail) 5 1 =
      some ([({ sampleTask "a" Frequency.daily none with
        lastRunTime := some (some 5)
        lastRunStatus := some RunStatus.failure
        updatedAt := some 5 } : SchedulerTask)],
        [(NotifLevel.error, "任务执行失败")]) := by rfl
  rw [hev] at h1
  obtain rfl : _ = ts := congrArg Prod.fst (Option.some.inj h1)
  exact ⟨hev, h2⟩

/-- Claim C7: calling `updateTask` with an id not present in the
collection leaves the collection exactly equal to its prior state, emits
one error notification, and (being a total function) throws nothing. -/
theorem C7_update_missing_id_is_noop (tasks : List SchedulerTask) (taskId : String)
    (u : TaskUpdates) (now : Int) (h : taskId ∉ taskIds tasks) :
    updateTask tasks taskId u now =
      (tasks, [(NotifLevel.error, "更新任务失败：找不到指定任务")]) :=
  updateTask_absent tasks taskId u now h

/-- Claim C7 (witness): updating a missing id `"x"` on a concrete
one-task collection returns the collection unchanged with the error
notification. -/
theorem C7_witness :
    updateTask [sampleTask "a" Frequency.daily none] "x"
      { isActive := some false } 7 =
      ([sampleTask "a" Frequency.daily none],
        [(NotifLevel.error, "更新任务失败：找不到指定任务")]) :=
  C7_update_missing_id_is_noop [sampleTask "a" Frequency.daily none] "x"
    { isActive := some false } 7 (by decide)

/-- Claim C8: a scan (`checkTasks`) never selects a task whose `isActive`
is false, however far in the past its `nextRunTime` lies: selection
requires `task.isActive && task.nextRunTime <= now`. -/
theorem C8_inactive_never_selected (tasks : List SchedulerTask) (now : Int)
    (task : SchedulerTask) (h : task.isActive = false) :
    task ∉ checkTasks tasks now := by
  intro hmem
  rw [checkTasks] at hmem
  have hp := List.of_mem_filter hmem
  rw [h] at hp
  simp at hp

/-- Claim C8 (witness): an inactive task whose `nextRunTime` (0) is far
before `now` (99999999) is not selected. -/
theorem C8_witness :
    ({ sampleTask "a" Frequency.daily none with isActive := false } : SchedulerTask) ∉
      checkTasks [({ sampleTask "a" Frequency.daily none with
        isActive := false } : SchedulerTask)] 99999999 :=
  C8_inactive_never_selected _ 99999999 _ rfl

/-- Claim C9: starting from the empty collection, adding a task and then
deleting it by the id `addTask` returned leaves the collection empty. -/
theorem C9_add_then_delete_empty (spec : TaskSpec) (genId : String) (now : Int) :
    (deleteTask (addTask [] spec genId now).1 (addTask [] spec genId now).2.1.id).1 =
      [] := by
  simp [addTask, deleteTask]

/-- Claim C10 (counterexample): with no `onTaskRun` callback, `runTask` on
an existing task does not always take the success path: on a task with
frequency `custom` and no `customCron`, the success-path call to
`calculateNextRunTime` never returns under the frozen clock, so `runTask`
never completes (in a real engine the recursion overflows the stack). -/
theorem C10_counterexample_custom_never_completes :
    ¬ RunTaskTerminates [sampleTask "t1" Frequency.custom none] "t1" none
      1704283200000 := by
  rintro ⟨fuel, hne⟩
  apply hne
  have hd := calc_diverges fuel (sampleTask "t1" Frequency.custom none) 1704283200000
    rfl rfl
  simp only [sampleTask] at hd
  simp [runTask, List.find?, sampleTask, hd]

/-- Claim C10 (amended): with no `onTaskRun` callback, for every id
present in the collection whose task's `calculateNextRunTime` terminates
(in particular whenever its frequency is not `custom`), `runTask` takes
the success path: it sets `lastRunStatus` to success and `lastRunTime` to
the run time, replaces `nextRunTime` with the freshly computed value, and
emits a success notification. -/
theorem C10_amended_success_path (tasks : List SchedulerTask) (task : SchedulerTask)
    (taskId : String) (now : Int) (fuel : Nat) (nrt : JSDate)
    (hfind : tasks.find? (fun t => t.id == taskId) = some task)
    (hcalc : calculateNextRunTime fuel task now = some nrt) :
    ∃ ts, runTask tasks taskId none now fuel =
        some (ts, [(NotifLevel.success, "任务执行成功")]) ∧
      ts.find? (fun t => t.id == taskId) = some
        ({ task with
            nextRunTime := nrt
            lastRunTime := some (some now)
            lastRunStatus := some RunStatus.success
            updatedAt := some now } : SchedulerTask) :=
  runTask_success_noCallback tasks task taskId now fuel nrt hfind hcalc

/-- Claim C10 (witness): the success path evaluated on a concrete daily
task at 2024-01-03 12:00 UTC; `nextRunTime` becomes 2024-01-04 09:00. -/
theorem C10_witness :
    runTask [sampleTask "a" Frequency.daily none] "a" none 1704283200000 1 =
      some ([({ sampleTask "a" Frequency.daily none with
        nextRunTime := some 1704358800000
        lastRunTime := some (some 1704283200000)
        lastRunStatus := some RunStatus.success
        updatedAt := some 1704283200000 } : SchedulerTask)],
        [(NotifLevel.success, "任务执行成功")]) := by
  obtain ⟨ts, h1, h2⟩ := C10_amended_success_path
    [sampleTask "a" Frequency.daily none] (sampleTask "a" Frequency.daily none)
    "a" 1704283200000 1 (some 1704358800000) rfl rfl
  have hev : runTask [sampleTask "a" Frequency.daily none] "a" none 1704283200000 1 =
      some ([({ sampleTask "a" Frequency.daily none with
        nextRunTime := some 1704358800000
        lastRunTime := some (some 1704283200000)
        lastRunStatus := some RunStatus.success
        updatedAt := some 1704283200000 } : SchedulerTask)],
        [(NotifLevel.success, "任务执行成功")]) := by rfl
  exact hev

end SchedulerModel
